import Mathlib

/-!
Verification of the resilient HTTP call pipeline of the TXO Python Template
(utils/api_common.py and utils/rest_api_helpers.py), as a shallow embedding.

Conventions of the embedding:
* Python floats (rates, delays, timestamps) are modelled as rationals (ℚ).
* Wall-clock time is passed explicitly: a method that reads time.time()
  takes the current reading (or the elapsed time since the previous one)
  as an argument.
* time.sleep is modelled by returning the requested sleep duration.
* Mutation of self is modelled by returning the updated record.
-/

namespace TxoTemplate

/-! ### RateLimiter (utils/api_common.py, lines 21-59) -/

/-- State of `RateLimiter`: `rate` and `burst_size` are set in `__init__`
and never change; `allowance` is the current token count.  The
`last_check` timestamp is replaced by passing the elapsed time
(`time_passed = current - last_check`) explicitly to each call. -/
structure RateLimiter where
  rate : ℚ
  burst_size : ℚ
  allowance : ℚ
deriving DecidableEq, Repr

/-- `RateLimiter.__init__`: `burst_size = max(1.0, burst_size)`,
`allowance = min(1.0, burst_size)` (with the clamped burst size). -/
def RateLimiter.init (calls_per_second : ℚ) (burst_size : ℚ) : RateLimiter :=
  { rate := calls_per_second
    burst_size := max 1 burst_size
    allowance := min 1 (max 1 burst_size) }

/-- `RateLimiter.wait_if_needed`: replenish `allowance` by
`time_passed * rate`, cap at `burst_size`; if the result is below 1.0,
sleep `(1.0 - allowance) / rate` and set `allowance = 0`, otherwise
consume one token.  Returns the new state and the slept duration
(0 when the call returned immediately). -/
def RateLimiter.wait_if_needed (rl : RateLimiter) (time_passed : ℚ) :
    RateLimiter × ℚ :=
  let a1 := rl.allowance + time_passed * rl.rate
  let a2 := if a1 > rl.burst_size then rl.burst_size else a1
  if a2 < 1 then
    ({ rl with allowance := 0 }, (1 - a2) / rl.rate)
  else
    ({ rl with allowance := a2 - 1 }, 0)

/-- Modelled from the spec's words (section 4.1), for comparison with
`RateLimiter.wait_if_needed`: "replenish `allowance += elapsed * rate`,
capped at `burst_size`. If `allowance < 1.0`, sleep for
`(1.0 - allowance) / rate` seconds, then set `allowance = 0`. Otherwise
decrement `allowance -= 1.0` and return immediately."  Returns the new
allowance and the slept duration. -/
def specTokenBucketAcquire (rate burst_size allowance elapsed : ℚ) : ℚ × ℚ :=
  let replenished := min burst_size (allowance + elapsed * rate)
  if replenished < 1 then (0, (1 - replenished) / rate)
  else (replenished - 1, 0)

/-- The invariant claimed for the limiter state. -/
def RateLimiter.inv (rl : RateLimiter) : Prop :=
  0 ≤ rl.allowance ∧ rl.allowance ≤ rl.burst_size

instance (rl : RateLimiter) : Decidable rl.inv := by
  unfold RateLimiter.inv; infer_instance

/-- A sequence of `wait_if_needed` calls, given the elapsed time before
each call. -/
def RateLimiter.runCalls (rl : RateLimiter) : List ℚ → RateLimiter
  | [] => rl
  | e :: es => ((rl.wait_if_needed e).1).runCalls es

lemma wait_if_needed_burst (rl : RateLimiter) (e : ℚ) :
    ((rl.wait_if_needed e).1).burst_size = rl.burst_size := by
  unfold RateLimiter.wait_if_needed
  dsimp only
  split <;> split <;> rfl

lemma wait_if_needed_inv (rl : RateLimiter) (e : ℚ)
    (hb : 1 ≤ rl.burst_size) (h : rl.inv) : ((rl.wait_if_needed e).1).inv := by
  obtain ⟨h0, _⟩ := h
  unfold RateLimiter.wait_if_needed RateLimiter.inv
  dsimp only
  by_cases hcap : rl.allowance + e * rl.rate > rl.burst_size
  · simp only [hcap, if_true]
    by_cases hlow : rl.burst_size < 1
    · simp only [hlow, if_true]
      exact ⟨le_refl 0, by linarith⟩
    · simp only [hlow, if_false]
      push_neg at hlow
      exact ⟨by linarith, by linarith⟩
  · simp only [hcap, if_false]
    push_neg at hcap
    by_cases hlow : rl.allowance + e * rl.rate < 1
    · simp only [hlow, if_true]
      exact ⟨le_refl 0, by linarith⟩
    · simp only [hlow, if_false]
      push_neg at hlow
      exact ⟨by linarith, by linarith⟩

lemma runCalls_inv (es : List ℚ) (rl : RateLimiter)
    (hb : 1 ≤ rl.burst_size) (h : rl.inv) : (rl.runCalls es).inv := by
  induction es generalizing rl with
  | nil => exact h
  | cons e es ih =>
      exact ih _ (by rw [wait_if_needed_burst]; exact hb)
        (wait_if_needed_inv rl e hb h)

/-! ### CircuitBreaker (utils/api_common.py, lines 62-123) -/

/-- The `_state` string field: "closed", "open", "half-open". -/
inductive CBState
  | closed
  | opn
  | halfOpen
deriving DecidableEq, Repr

/-- State of `CircuitBreaker`.  `time.time()` readings are passed
explicitly to `record_failure` and `is_open`. -/
structure CircuitBreaker where
  failure_threshold : ℕ
  timeout : ℚ
  failures : ℕ
  last_failure : ℚ
  state : CBState
deriving DecidableEq, Repr

/-- `CircuitBreaker.__init__`. -/
def CircuitBreaker.init (failure_threshold : ℕ) (timeout : ℚ) : CircuitBreaker :=
  { failure_threshold := failure_threshold
    timeout := timeout
    failures := 0
    last_failure := 0
    state := .closed }

/-- `CircuitBreaker.record_success`: reset failures, close the circuit. -/
def CircuitBreaker.record_success (cb : CircuitBreaker) : CircuitBreaker :=
  { cb with failures := 0, state := .closed }

/-- `CircuitBreaker.record_failure`: increment failures, stamp the time,
and open the circuit when the threshold is reached. -/
def CircuitBreaker.record_failure (cb : CircuitBreaker) (now : ℚ) : CircuitBreaker :=
  let cb1 : CircuitBreaker := { cb with failures := cb.failures + 1, last_failure := now }
  if cb1.failures ≥ cb1.failure_threshold then { cb1 with state := .opn } else cb1

/-- `CircuitBreaker.is_open`: returns the (possibly updated) state and
the boolean result.  In the open state, once `timeout` seconds have
elapsed since the last failure, the call itself flips the state to
half-open and returns `False`; otherwise the final
`return self._state == "open"` line decides the result. -/
def CircuitBreaker.is_open (cb : CircuitBreaker) (now : ℚ) : CircuitBreaker × Bool :=
  if cb.state = .closed then (cb, false)
  else if cb.state = .opn then
    if now - cb.last_failure ≥ cb.timeout then
      ({ cb with state := .halfOpen }, false)
    else (cb, decide (cb.state = .opn))
  else (cb, decide (cb.state = .opn))

/-- `CircuitBreaker.reset`. -/
def CircuitBreaker.reset (cb : CircuitBreaker) : CircuitBreaker :=
  { cb with failures := 0, state := .closed }

lemma is_open_opn_before (cb : CircuitBreaker) (now : ℚ) (hs : cb.state = .opn)
    (ht : now - cb.last_failure < cb.timeout) : cb.is_open now = (cb, true) := by
  unfold CircuitBreaker.is_open
  rw [if_neg (by rw [hs]; intro hcon; cases hcon), if_pos hs,
    if_neg (not_le.mpr ht)]
  simp [hs]

lemma is_open_opn_after (cb : CircuitBreaker) (now : ℚ) (hs : cb.state = .opn)
    (ht : cb.timeout ≤ now - cb.last_failure) :
    cb.is_open now = ({ cb with state := .halfOpen }, false) := by
  unfold CircuitBreaker.is_open
  rw [if_neg (by rw [hs]; intro hcon; cases hcon), if_pos hs, if_pos ht]

lemma is_open_halfOpen (cb : CircuitBreaker) (now : ℚ) (hs : cb.state = .halfOpen) :
    cb.is_open now = (cb, false) := by
  unfold CircuitBreaker.is_open
  rw [if_neg (by rw [hs]; intro hcon; cases hcon),
    if_neg (by rw [hs]; intro hcon; cases hcon)]
  simp [hs]

/-! ### Claims about RateLimiter and CircuitBreaker -/

/-- Claim C6: `wait_if_needed` computes exactly the spec's token-bucket
acquire step (replenish by `elapsed * rate` capped at `burst_size`; when
the allowance is below 1.0, sleep `(1 - allowance) / rate` seconds and
set the allowance to exactly 0, otherwise consume one token and return
without sleeping), and the first call on a freshly constructed limiter
returns without sleeping, the allowance being initialized to
`min 1 burst_size`. -/
theorem rateLimiter_token_bucket_spec :
    (∀ (rl : RateLimiter) (e : ℚ),
        (((rl.wait_if_needed e).1).allowance, (rl.wait_if_needed e).2)
          = specTokenBucketAcquire rl.rate rl.burst_size rl.allowance e) ∧
    (∀ c b : ℚ, (RateLimiter.init c b).allowance
          = min 1 (RateLimiter.init c b).burst_size) ∧
    (∀ c b e : ℚ, 0 ≤ c → 0 ≤ e → ((RateLimiter.init c b).wait_if_needed e).2 = 0) := by
  refine ⟨?_, ?_, ?_⟩
  · intro rl e
    unfold RateLimiter.wait_if_needed specTokenBucketAcquire
    dsimp only
    have hmin : (if rl.allowance + e * rl.rate > rl.burst_size then rl.burst_size
        else rl.allowance + e * rl.rate)
          = min rl.burst_size (rl.allowance + e * rl.rate) := by
      rcases lt_or_ge rl.burst_size (rl.allowance + e * rl.rate) with h | h
      · rw [if_pos h, min_eq_left h.le]
      · rw [if_neg (not_lt.mpr h), min_eq_right h]
    rw [hmin]
    split <;> rfl
  · intro c b
    rfl
  · intro c b e hc he
    unfold RateLimiter.init RateLimiter.wait_if_needed
    dsimp only
    have hm : min 1 (max 1 b) = (1 : ℚ) := min_eq_left (le_max_left 1 b)
    have h1 : (1 : ℚ) ≤ min 1 (max 1 b) + e * c := by
      rw [hm]; nlinarith [mul_nonneg he hc]
    have h2 : (1 : ℚ) ≤ max 1 b := le_max_left 1 b
    have h3 : ¬ ((if min 1 (max 1 b) + e * c > max 1 b then max 1 b
        else min 1 (max 1 b) + e * c) < 1) := by
      split <;> simp only [not_lt] <;> linarith
    rw [if_neg h3]

/-- Witness for C6 at a concrete input. -/
theorem rateLimiter_token_bucket_spec_witness :
    ((RateLimiter.init 2 1).wait_if_needed 0).2 = 0 :=
  rateLimiter_token_bucket_spec.2.2 2 1 0 (by norm_num) (le_refl 0)

/-- Claim C7: the invariant `0 ≤ allowance ≤ burst_size` holds after
construction and is preserved by every `wait_if_needed` call, for every
sequence of calls with non-negative elapsed times between them. -/
theorem rateLimiter_invariant (c b : ℚ) (es : List ℚ) (_hes : ∀ e ∈ es, 0 ≤ e) :
    (RateLimiter.init c b).inv ∧ ((RateLimiter.init c b).runCalls es).inv := by
  have hinv : (RateLimiter.init c b).inv := by
    constructor
    · exact le_min (by norm_num) (le_trans zero_le_one (le_max_left 1 b))
    · exact min_le_right _ _
  exact ⟨hinv, runCalls_inv es _ (le_max_left 1 b) hinv⟩

/-- Witness for C7 at a concrete input. -/
theorem rateLimiter_invariant_witness :
    (RateLimiter.init 5 2).inv ∧ ((RateLimiter.init 5 2).runCalls [0, 1]).inv :=
  rateLimiter_invariant 5 2 [0, 1] (by
    intro e he
    simp only [List.mem_cons, List.not_mem_nil, or_false] at he
    rcases he with rfl | rfl <;> norm_num)

/-- Claim C2 fails as stated: after the half-open transition, a second
`is_open` call (with no intervening `record_success` or `record_failure`)
again returns `False`, so the `False` result is not produced exactly
once.  With threshold 1 and timeout 1: a failure at time 0 opens the
breaker; at time 1 `is_open` flips it to half-open and returns `False`;
at time 2 the next `is_open` returns `False` again. -/
theorem circuitBreaker_half_open_not_once :
    (((CircuitBreaker.init 1 1).record_failure 0).is_open 1).2 = false ∧
    (((((CircuitBreaker.init 1 1).record_failure 0).is_open 1).1).is_open 2).2 = false := by
  have h1 : (CircuitBreaker.init 1 1).record_failure 0
      = (⟨1, 1, 1, 0, .opn⟩ : CircuitBreaker) := rfl
  have h2 : (⟨1, 1, 1, 0, .opn⟩ : CircuitBreaker).is_open 1
      = ((⟨1, 1, 1, 0, .halfOpen⟩ : CircuitBreaker), false) :=
    is_open_opn_after _ 1 rfl (by norm_num)
  have h3 : (⟨1, 1, 1, 0, .halfOpen⟩ : CircuitBreaker).is_open 2
      = ((⟨1, 1, 1, 0, .halfOpen⟩ : CircuitBreaker), false) :=
    is_open_halfOpen _ 2 rfl
  rw [h1, h2, h3]
  exact ⟨rfl, rfl⟩

/-- Claim C2 (amended): while the breaker is open and the timeout has not
elapsed, `is_open` returns `True` and leaves the state unchanged; the
first call at or after the timeout flips the state to half-open and
returns `False`; but every further `is_open` call in the half-open state
also returns `False` (keeping the state half-open) until
`record_success` or `record_failure` changes the state — the `False`
result is produced on every such call, not exactly once. -/
theorem circuitBreaker_half_open_transition (cb : CircuitBreaker) (now : ℚ) :
    (cb.state = .opn → now - cb.last_failure < cb.timeout →
      cb.is_open now = (cb, true)) ∧
    (cb.state = .opn → cb.timeout ≤ now - cb.last_failure →
      cb.is_open now = ({ cb with state := .halfOpen }, false)) ∧
    (cb.state = .halfOpen → cb.is_open now = (cb, false)) :=
  ⟨is_open_opn_before cb now, is_open_opn_after cb now, is_open_halfOpen cb now⟩

/-- Witness for the amended C2 at a concrete input. -/
theorem circuitBreaker_half_open_transition_witness :
    ((⟨1, 10, 1, 0, .opn⟩ : CircuitBreaker).is_open 3
      = ((⟨1, 10, 1, 0, .opn⟩ : CircuitBreaker), true)) ∧
    ((⟨1, 10, 1, 0, .halfOpen⟩ : CircuitBreaker).is_open 3
      = ((⟨1, 10, 1, 0, .halfOpen⟩ : CircuitBreaker), false)) :=
  ⟨(circuitBreaker_half_open_transition _ 3).1 rfl (by norm_num),
   (circuitBreaker_half_open_transition _ 3).2.2 rfl⟩

/-! ### TxoRestAPI pipeline (utils/rest_api_helpers.py)

The HTTP layer (`requests`) is external to the repository; a `world`
function gives the outcome of each physical attempt made through
`self.session.request`.  Response bodies are modelled by the JSON value
they decode to: `content = none` stands for an empty body (and
`response.json() if response.content else {}` evaluates to the empty
dict), `content = some v` for a body decoding to `v`.  The jitter
configuration defaults to `min-factor = max-factor = 1.0` in
`TxoRestAPI.__init__`, so sleeps are recorded by their base delay (the
value passed to `apply_jitter`). -/

/-- An HTTP response as seen by `_execute_request`: status code and the
headers and body fields the pipeline reads.  `err_message` models the
`error.message` field of a JSON error body when the body carries one
(`_handle_response_error` falls back to `HTTP <status>` otherwise). -/
structure HttpResponse where
  status_code : ℕ
  retry_after : Option ℚ := none
  location : Option String := none
  content : Option String := none
  err_message : Option String := none
deriving DecidableEq, Repr

/-- `requests.Response.ok`: status below 400. -/
def HttpResponse.ok (r : HttpResponse) : Bool :=
  decide (r.status_code < 400)

/-- `response.json() if response.content else {}` — under the body-as-value
convention this is the content itself (`none` standing for `{}`). -/
def respJson (r : HttpResponse) : Option String := r.content

/-- The exception types raised by the REST pipeline
(utils/exceptions.py). -/
inductive ApiError
  | apiOperationError (message : String)
  | apiTimeoutError (message : String)
  | apiValidationError (message : String)
  | entityNotFoundError (resource : String) (message : String)
deriving DecidableEq, Repr

/-- Outcome of one physical `self.session.request` call. -/
inductive AttemptOutcome
  | resp (r : HttpResponse)
  | timeoutExc (message : String)
  | requestExc (message : String)
deriving DecidableEq, Repr

/-- Observable events of one `_execute_request` run, in order:
the circuit-breaker gate check, the rate-limiter acquire, each physical
HTTP attempt (with its 0-based index and whether it failed), breaker
outcome recording, and each sleep with its base (pre-jitter) delay. -/
inductive Ev
  | checkBreaker (wasOpen : Bool)
  | acquireRateLimit
  | httpAttempt (attempt : ℕ) (failed : Bool)
  | recordSuccess
  | recordFailure
  | sleep (base_delay : ℚ)
deriving DecidableEq, Repr

/-- Client configuration for one `_execute_request` call: the method and
url, the `max-retries` and `backoff-factor` timeout settings, whether a
rate limiter and a circuit breaker are configured, and the value the
breaker's `is_open()` returns at entry. -/
structure ExecCfg where
  method : String
  url : String
  max_retries : ℕ
  backoff_factor : ℚ
  hasBreaker : Bool
  hasLimiter : Bool
  breakerOpen : Bool
deriving Repr

/-- The retryable status codes of the retry loop. -/
def retryableStatus (s : ℕ) : Bool :=
  s = 429 || s = 500 || s = 502 || s = 503 || s = 504

/-- Error-message extraction of `_handle_response_error`:
`error.message` from a JSON error body when present, else the
`HTTP <status>` fallback. -/
def errorMessage (r : HttpResponse) : String :=
  match r.err_message with
  | some m => m
  | none => "HTTP " ++ toString r.status_code

/-- `TxoRestAPI._handle_response_error`: records a failure in the
circuit breaker when one is configured, then raises the exception
classified from the status code.  Returns the emitted events and the
raised error. -/
def handle_response_error (hasBreaker : Bool) (r : HttpResponse)
    (operation_name : String) : List Ev × ApiError :=
  let msg := errorMessage r
  let evs := if hasBreaker then [Ev.recordFailure] else []
  if r.status_code = 408 then
    (evs, .apiTimeoutError (operation_name ++ " timed out: " ++ msg))
  else if r.status_code = 400 ∨ r.status_code = 422 then
    (evs, .apiValidationError (operation_name ++ " validation failed: " ++ msg))
  else if r.status_code = 404 then
    (evs, .entityNotFoundError "Resource" msg)
  else if r.status_code = 409 then
    (evs, .apiValidationError (operation_name ++ " conflict: " ++ msg))
  else if r.status_code = 429 then
    (evs, .apiOperationError (operation_name ++ " rate limited: " ++ msg))
  else
    (evs, .apiOperationError (operation_name ++ " failed: " ++ msg))

/-- `TxoRestAPI._handle_async_operation`, with the polling loop
abstracted by its result `pollResult` (verified separately as
`pollLoop`): a non-202 response or a 202 response without a `Location`
header returns the response's own body immediately; otherwise the
outcome is that of the polling loop. -/
def handle_async_operation (r : HttpResponse)
    (pollResult : Except ApiError (Option String)) :
    Except ApiError (Option String) :=
  if r.status_code ≠ 202 then .ok (respJson r)
  else
    match r.location with
    | none => .ok (respJson r)
    | some _ => pollResult

/-- The `last_error` formatting of the final `ApiOperationError`
(`None` is Python's `str(None)` for an unset `last_error`). -/
def lastErrorStr : Option String → String
  | some m => m
  | none => "None"

/-- The retry loop body of `_execute_request`
(`for attempt in range(max_retries)`), one list element per remaining
loop index.  Each iteration performs one physical attempt via `world`;
on `response.ok or status == 202` it records a success and (for a 202
without `skip_async_check`) replaces the response body with the async
result and the status with 200; on a retryable status it sleeps
(`Retry-After` header value, else `backoff_factor ** attempt`) and
continues unless on the last attempt, in which case (as for every
non-retryable status) `_handle_response_error` classifies and raises;
`requests.Timeout` and `requests.RequestException` retry the same way
and raise `ApiTimeoutError` / `ApiOperationError` on the last attempt.
When the loop exhausts its range without returning (possible only for
`max_retries = 0`) a failure is recorded and the
`failed after N attempts` error is raised. -/
def execLoop (cfg : ExecCfg) (world : ℕ → AttemptOutcome) (skipAsync : Bool)
    (pollResult : Except ApiError (Option String)) :
    List ℕ → Option String → List Ev × Except ApiError HttpResponse
  | [], lastError =>
    ((if cfg.hasBreaker then [Ev.recordFailure] else []),
     .error (.apiOperationError (cfg.method ++ " failed after "
       ++ toString cfg.max_retries ++ " attempts. Last error: "
       ++ lastErrorStr lastError)))
  | attempt :: restAttempts, lastError =>
    match world attempt with
    | .resp r =>
      if r.ok || r.status_code = 202 then
        let succEvs := Ev.httpAttempt attempt false
          :: (if cfg.hasBreaker then [Ev.recordSuccess] else [])
        if r.status_code = 202 && !skipAsync then
          match handle_async_operation r pollResult with
          | .ok result => (succEvs, .ok { r with content := result, status_code := 200 })
          | .error e => (succEvs, .error e)
        else
          (succEvs, .ok r)
      else if retryableStatus r.status_code then
        let lastError1 := some ("HTTP " ++ toString r.status_code)
        if attempt < cfg.max_retries - 1 then
          let delay := match r.retry_after with
            | some ra => ra
            | none => cfg.backoff_factor ^ attempt
          let rest := execLoop cfg world skipAsync pollResult restAttempts lastError1
          (Ev.httpAttempt attempt true :: Ev.sleep delay :: rest.1, rest.2)
        else
          let he := handle_response_error cfg.hasBreaker r cfg.method
          (Ev.httpAttempt attempt true :: he.1, .error he.2)
      else
        let he := handle_response_error cfg.hasBreaker r cfg.method
        (Ev.httpAttempt attempt true :: he.1, .error he.2)
    | .timeoutExc m =>
      if attempt < cfg.max_retries - 1 then
        let delay := cfg.backoff_factor ^ attempt
        let rest := execLoop cfg world skipAsync pollResult restAttempts (some m)
        (Ev.httpAttempt attempt true :: Ev.sleep delay :: rest.1, rest.2)
      else
        ([Ev.httpAttempt attempt true],
         .error (.apiTimeoutError (cfg.method ++ " request timed out: " ++ cfg.url)))
    | .requestExc m =>
      if attempt < cfg.max_retries - 1 then
        let delay := cfg.backoff_factor ^ attempt
        let rest := execLoop cfg world skipAsync pollResult restAttempts (some m)
        (Ev.httpAttempt attempt true :: Ev.sleep delay :: rest.1, rest.2)
      else
        ([Ev.httpAttempt attempt true],
         .error (.apiOperationError (cfg.method ++ " request failed: " ++ m)))

/-- `TxoRestAPI._execute_request`: the circuit-breaker gate
(`_check_circuit_breaker`, which raises when the breaker is configured
and open), then the rate-limiter gate (`_apply_rate_limit`), then the
retry loop over `range(max_retries)`. -/
def execute_request (cfg : ExecCfg) (world : ℕ → AttemptOutcome)
    (skipAsync : Bool) (pollResult : Except ApiError (Option String)) :
    List Ev × Except ApiError HttpResponse :=
  if cfg.hasBreaker && cfg.breakerOpen then
    ([Ev.checkBreaker true],
     .error (.apiOperationError ("Circuit breaker open for " ++ cfg.method
       ++ " " ++ cfg.url ++ ". Too many failures detected.")))
  else
    let gateEvs := (if cfg.hasBreaker then [Ev.checkBreaker cfg.breakerOpen] else [])
      ++ (if cfg.hasLimiter then [Ev.acquireRateLimit] else [])
    let run := execLoop cfg world skipAsync pollResult
      (List.range cfg.max_retries) none
    (gateEvs ++ run.1, run.2)

/-- Helper: is an event a physical HTTP attempt. -/
def isHttpAttempt : Ev → Bool
  | .httpAttempt _ _ => true
  | _ => false

/-- Helper: is an event a failed physical HTTP attempt. -/
def isFailedAttempt : Ev → Bool
  | .httpAttempt _ f => f
  | _ => false

/-- Helper: is an event a `record_failure` call on the breaker. -/
def isRecordFailure : Ev → Bool
  | .recordFailure => true
  | _ => false

/-- Helper: is an event a rate-limiter acquire. -/
def isAcquire : Ev → Bool
  | .acquireRateLimit => true
  | _ => false

/-- Helper: the base delays of the sleep events of a trace, in order. -/
def sleepsOf (evs : List Ev) : List ℚ :=
  evs.filterMap fun e =>
    match e with
    | .sleep d => some d
    | _ => none

/-- The event trail of the retry loop over attempts `a, a+1, …, a+k-1`
when every attempt fails with a retryable status (responses given by
`rs`): each non-final attempt is followed by a sleep, the final attempt
by the failure recording of the error classification; `k = 0` is the
exhausted-range case. -/
def trailEvs (cfg : ExecCfg) (rs : ℕ → HttpResponse) : ℕ → ℕ → List Ev
  | _, 0 => if cfg.hasBreaker then [Ev.recordFailure] else []
  | a, 1 => Ev.httpAttempt a true :: (if cfg.hasBreaker then [Ev.recordFailure] else [])
  | a, k + 2 =>
    Ev.httpAttempt a true
      :: Ev.sleep (match (rs a).retry_after with
          | some ra => ra
          | none => cfg.backoff_factor ^ a)
      :: trailEvs cfg rs (a + 1) (k + 1)

lemma retryable_cases (s : ℕ) (h : retryableStatus s = true) :
    s = 429 ∨ s = 500 ∨ s = 502 ∨ s = 503 ∨ s = 504 := by
  simp [retryableStatus] at h
  tauto

lemma retryable_not_ok (r : HttpResponse)
    (h : retryableStatus r.status_code = true) :
    (r.ok || decide (r.status_code = 202)) = false := by
  rcases retryable_cases _ h with h5 | h5 | h5 | h5 | h5 <;>
    simp [HttpResponse.ok, h5]

lemma handle_response_error_evs (hasBreaker : Bool) (r : HttpResponse)
    (operation_name : String) :
    (handle_response_error hasBreaker r operation_name).1
      = if hasBreaker then [Ev.recordFailure] else [] := by
  unfold handle_response_error
  dsimp only
  split_ifs <;> rfl

lemma execLoop_cons_retryable (cfg : ExecCfg) (world : ℕ → AttemptOutcome)
    (skipAsync : Bool) (pollResult : Except ApiError (Option String))
    (a : ℕ) (rest : List ℕ) (lastError : Option String) (r : HttpResponse)
    (hw : world a = .resp r) (hr : retryableStatus r.status_code = true)
    (hlt : a < cfg.max_retries - 1) :
    execLoop cfg world skipAsync pollResult (a :: rest) lastError
      = (Ev.httpAttempt a true
          :: Ev.sleep (match r.retry_after with
              | some ra => ra
              | none => cfg.backoff_factor ^ a)
          :: (execLoop cfg world skipAsync pollResult rest
                (some ("HTTP " ++ toString r.status_code))).1,
         (execLoop cfg world skipAsync pollResult rest
            (some ("HTTP " ++ toString r.status_code))).2) := by
  simp [execLoop, hw, retryable_not_ok r hr, hr, hlt]

lemma execLoop_cons_retryable_last (cfg : ExecCfg) (world : ℕ → AttemptOutcome)
    (skipAsync : Bool) (pollResult : Except ApiError (Option String))
    (a : ℕ) (rest : List ℕ) (lastError : Option String) (r : HttpResponse)
    (hw : world a = .resp r) (hr : retryableStatus r.status_code = true)
    (hnot : ¬ a < cfg.max_retries - 1) :
    execLoop cfg world skipAsync pollResult (a :: rest) lastError
      = (Ev.httpAttempt a true :: (if cfg.hasBreaker then [Ev.recordFailure] else []),
         .error (handle_response_error cfg.hasBreaker r cfg.method).2) := by
  simp [execLoop, hw, retryable_not_ok r hr, hr, hnot, handle_response_error_evs]

lemma execLoop_all_retryable (cfg : ExecCfg) (world : ℕ → AttemptOutcome)
    (skipAsync : Bool) (pollResult : Except ApiError (Option String))
    (rs : ℕ → HttpResponse)
    (hw : ∀ n, world n = .resp (rs n))
    (hr : ∀ n, retryableStatus (rs n).status_code = true) :
    ∀ (k a : ℕ) (lastError : Option String), 1 ≤ k → a + k = cfg.max_retries →
      execLoop cfg world skipAsync pollResult (List.range' a k) lastError
        = (trailEvs cfg rs a k,
           .error (handle_response_error cfg.hasBreaker
             (rs (cfg.max_retries - 1)) cfg.method).2) := by
  intro k
  induction k with
  | zero => intro a lastError hk; omega
  | succ k ih =>
    intro a lastError _ hsum
    have hrange : List.range' a (k + 1) = a :: List.range' (a + 1) k := rfl
    rcases Nat.eq_zero_or_pos k with hk0 | hkpos
    · subst hk0
      have hnot : ¬ (a < cfg.max_retries - 1) := by omega
      have hlast : a = cfg.max_retries - 1 := by omega
      rw [hrange,
        execLoop_cons_retryable_last cfg world skipAsync pollResult a _ _ _ (hw a) (hr a) hnot,
        trailEvs, hlast]
    · have hlt : a < cfg.max_retries - 1 := by omega
      obtain ⟨k1, rfl⟩ : ∃ k1, k = k1 + 1 := ⟨k - 1, by omega⟩
      rw [hrange,
        execLoop_cons_retryable cfg world skipAsync pollResult a _ _ _ (hw a) (hr a) hlt,
        ih (a + 1) (some ("HTTP " ++ toString (rs a).status_code)) (by omega) (by omega),
        trailEvs]

lemma countP_recordFailure_trailEvs (cfg : ExecCfg) (rs : ℕ → HttpResponse) :
    ∀ (k a : ℕ), (trailEvs cfg rs a k).countP isRecordFailure
      = if cfg.hasBreaker then 1 else 0 := by
  intro k
  induction k with
  | zero =>
      intro a
      by_cases hb : cfg.hasBreaker <;> simp [trailEvs, hb, isRecordFailure]
  | succ k ih =>
      intro a
      match k with
      | 0 =>
        by_cases hb : cfg.hasBreaker <;>
          simp [trailEvs, hb, List.countP_cons, isRecordFailure]
      | k1 + 1 =>
        simp [trailEvs, List.countP_cons, isRecordFailure, ih (a + 1)]

lemma countP_failedAttempt_trailEvs (cfg : ExecCfg) (rs : ℕ → HttpResponse) :
    ∀ (k a : ℕ), (trailEvs cfg rs a k).countP isFailedAttempt = k := by
  intro k
  induction k with
  | zero =>
      intro a
      by_cases hb : cfg.hasBreaker <;> simp [trailEvs, hb, isFailedAttempt]
  | succ k ih =>
      intro a
      match k with
      | 0 =>
        by_cases hb : cfg.hasBreaker <;>
          simp [trailEvs, hb, List.countP_cons, isFailedAttempt]
      | k1 + 1 =>
        simp [trailEvs, List.countP_cons, isFailedAttempt, ih (a + 1)]

lemma countP_httpAttempt_trailEvs (cfg : ExecCfg) (rs : ℕ → HttpResponse) :
    ∀ (k a : ℕ), (trailEvs cfg rs a k).countP isHttpAttempt = k := by
  intro k
  induction k with
  | zero =>
      intro a
      by_cases hb : cfg.hasBreaker <;> simp [trailEvs, hb, isHttpAttempt]
  | succ k ih =>
      intro a
      match k with
      | 0 =>
        by_cases hb : cfg.hasBreaker <;>
          simp [trailEvs, hb, List.countP_cons, isHttpAttempt]
      | k1 + 1 =>
        simp [trailEvs, List.countP_cons, isHttpAttempt, ih (a + 1)]

lemma sleepsOf_trailEvs (cfg : ExecCfg) (rs : ℕ → HttpResponse) :
    ∀ (k a : ℕ), sleepsOf (trailEvs cfg rs a k)
      = (List.range' a (k - 1)).map
          (fun n => ((rs n).retry_after).getD (cfg.backoff_factor ^ n)) := by
  intro k
  induction k with
  | zero =>
      intro a
      by_cases hb : cfg.hasBreaker <;> simp [trailEvs, hb, sleepsOf]
  | succ k ih =>
      intro a
      match k with
      | 0 =>
        by_cases hb : cfg.hasBreaker <;> simp [trailEvs, hb, sleepsOf]
      | k1 + 1 =>
        have hrange : List.range' a (k1 + 1) = a :: List.range' (a + 1) k1 := rfl
        simp only [trailEvs, sleepsOf, List.filterMap_cons, Nat.add_sub_cancel] at ih ⊢
        rw [hrange]
        simp only [List.map_cons, ih (a + 1)]
        cases hra : (rs a).retry_after <;> simp [hra, Option.getD]

lemma execute_request_all_retryable (cfg : ExecCfg) (world : ℕ → AttemptOutcome)
    (skipAsync : Bool) (pollResult : Except ApiError (Option String))
    (rs : ℕ → HttpResponse)
    (hw : ∀ n, world n = .resp (rs n))
    (hr : ∀ n, retryableStatus (rs n).status_code = true)
    (hm : 1 ≤ cfg.max_retries)
    (hgate : (cfg.hasBreaker && cfg.breakerOpen) = false) :
    execute_request cfg world skipAsync pollResult
      = ((if cfg.hasBreaker then [Ev.checkBreaker cfg.breakerOpen] else [])
          ++ (if cfg.hasLimiter then [Ev.acquireRateLimit] else [])
          ++ trailEvs cfg rs 0 cfg.max_retries,
         .error (handle_response_error cfg.hasBreaker
           (rs (cfg.max_retries - 1)) cfg.method).2) := by
  simp only [execute_request, hgate, Bool.false_eq_true, if_false,
    List.range_eq_range']
  rw [execLoop_all_retryable cfg world skipAsync pollResult rs hw hr
    cfg.max_retries 0 none hm (by omega)]

lemma countP_gate_evs (cfg : ExecCfg) (p : Ev → Bool)
    (h1 : p (Ev.checkBreaker cfg.breakerOpen) = false)
    (h2 : p Ev.acquireRateLimit = false) :
    ((if cfg.hasBreaker then [Ev.checkBreaker cfg.breakerOpen] else [])
      ++ (if cfg.hasLimiter then [Ev.acquireRateLimit] else [])).countP p = 0 := by
  by_cases hb : cfg.hasBreaker <;> by_cases hl : cfg.hasLimiter <;>
    simp [hb, hl, List.countP_cons, List.countP_nil, h1, h2]

/-! ### Claims about the retry pipeline -/

/-- Claim C1 fails as stated: with a circuit breaker configured,
`max_retries = 2` and every physical attempt failing with HTTP 500, the
run performs 2 failed physical attempts but `record_failure` is invoked
only once (by `_handle_response_error` on the final attempt), not once
per failed attempt. -/
theorem breaker_failure_recording_counterexample :
    ((execute_request ⟨"GET", "https://api.example.test/items", 2, 3, true, false, false⟩
        (fun _ => .resp ⟨500, none, none, none, none⟩) false (.ok none)).1.countP
          isFailedAttempt = 2) ∧
    ((execute_request ⟨"GET", "https://api.example.test/items", 2, 3, true, false, false⟩
        (fun _ => .resp ⟨500, none, none, none, none⟩) false (.ok none)).1.countP
          isRecordFailure = 1) := by
  exact ⟨rfl, rfl⟩

/-- Claim C1 (amended): with a circuit breaker configured,
`record_failure` is invoked once per failing logical operation, not once
per failed physical attempt: in a run whose every physical attempt fails
with a retryable status, the trace holds `max_retries` failed attempts
but exactly one `record_failure` (emitted by the error classification of
the final attempt). -/
theorem breaker_records_once_per_operation (cfg : ExecCfg)
    (world : ℕ → AttemptOutcome) (rs : ℕ → HttpResponse)
    (pollResult : Except ApiError (Option String))
    (hw : ∀ n, world n = .resp (rs n))
    (hr : ∀ n, retryableStatus (rs n).status_code = true)
    (hb : cfg.hasBreaker = true) (ho : cfg.breakerOpen = false)
    (hm : 1 ≤ cfg.max_retries) :
    ((execute_request cfg world false pollResult).1.countP isFailedAttempt
        = cfg.max_retries) ∧
    ((execute_request cfg world false pollResult).1.countP isRecordFailure = 1) := by
  rw [execute_request_all_retryable cfg world false pollResult rs hw hr hm
    (by simp [ho])]
  dsimp only
  constructor
  · rw [List.countP_append,
      countP_gate_evs cfg isFailedAttempt rfl rfl,
      countP_failedAttempt_trailEvs]
    omega
  · rw [List.countP_append,
      countP_gate_evs cfg isRecordFailure rfl rfl,
      countP_recordFailure_trailEvs]
    simp [hb]

/-- Witness for the amended C1 at a concrete input. -/
theorem breaker_records_once_per_operation_witness :
    ((execute_request ⟨"GET", "https://api.example.test/items", 3, 2, true, false, false⟩
        (fun _ => .resp ⟨503, none, none, none, none⟩) false (.ok none)).1.countP
          isFailedAttempt = 3) ∧
    ((execute_request ⟨"GET", "https://api.example.test/items", 3, 2, true, false, false⟩
        (fun _ => .resp ⟨503, none, none, none, none⟩) false (.ok none)).1.countP
          isRecordFailure = 1) :=
  breaker_records_once_per_operation _ _ (fun _ => ⟨503, none, none, none, none⟩) _
    (fun _ => rfl) (fun _ => rfl) rfl rfl (by norm_num)

/-- Claim C3 fails as stated: with both gates configured and the breaker
open, the call is rejected by the circuit-breaker gate without the
rate-limiter gate having been passed — no rate-limiter acquire appears
in the trace. -/
theorem limiter_gate_counterexample :
    ((execute_request ⟨"GET", "https://x", 5, 3, true, true, true⟩
        (fun _ => .resp ⟨200, none, none, none, none⟩) false (.ok none)).1.countP
          isAcquire = 0) ∧
    ((execute_request ⟨"GET", "https://x", 5, 3, true, true, true⟩
        (fun _ => .resp ⟨200, none, none, none, none⟩) false (.ok none)).2
      = .error (.apiOperationError
          "Circuit breaker open for GET https://x. Too many failures detected.")) := by
  exact ⟨rfl, rfl⟩

/-- Claim C3 (amended): the circuit-breaker gate is checked before the
rate-limiter gate.  When the breaker allows the call the trace begins
with the breaker check followed by the rate-limiter acquire; when the
breaker is open the call is rejected with the circuit-open error and the
rate-limiter gate is never passed. -/
theorem breaker_gate_before_limiter (cfg : ExecCfg) (world : ℕ → AttemptOutcome)
    (skipAsync : Bool) (pollResult : Except ApiError (Option String))
    (hb : cfg.hasBreaker = true) (hl : cfg.hasLimiter = true) :
    (cfg.breakerOpen = false →
      ∃ rest, (execute_request cfg world skipAsync pollResult).1
        = Ev.checkBreaker false :: Ev.acquireRateLimit :: rest) ∧
    (cfg.breakerOpen = true →
      ((execute_request cfg world skipAsync pollResult).1.countP isAcquire = 0) ∧
      ((execute_request cfg world skipAsync pollResult).2
        = .error (.apiOperationError ("Circuit breaker open for " ++ cfg.method
            ++ " " ++ cfg.url ++ ". Too many failures detected.")))) := by
  constructor
  · intro ho
    refine ⟨(execLoop cfg world skipAsync pollResult
      (List.range cfg.max_retries) none).1, ?_⟩
    simp [execute_request, hb, hl, ho]
  · intro ho
    refine ⟨?_, ?_⟩ <;> simp [execute_request, hb, ho, isAcquire, List.countP_cons]

/-- Witness for the amended C3 at a concrete input. -/
theorem breaker_gate_before_limiter_witness :
    ((execute_request ⟨"POST", "https://y", 2, 2, true, true, true⟩
        (fun _ => .resp ⟨200, none, none, none, none⟩) false (.ok none)).1.countP
          isAcquire = 0) ∧
    ((execute_request ⟨"POST", "https://y", 2, 2, true, true, true⟩
        (fun _ => .resp ⟨200, none, none, none, none⟩) false (.ok none)).2
      = .error (.apiOperationError
          "Circuit breaker open for POST https://y. Too many failures detected.")) :=
  (breaker_gate_before_limiter _ _ _ _ rfl rfl).2 rfl

/-- Claim C4 fails as stated: the computed backoff delay
`backoff_factor ** attempt` is not capped.  With `backoff_factor = 3`
and 9 attempts all failing with HTTP 500 and no `Retry-After` header,
the base delays are `3^0 … 3^7`, and `3^7 = 2187` exceeds any cap on
the order of 30 seconds. -/
theorem backoff_cap_counterexample :
    ((30 : ℚ) < 3 ^ 7) ∧
    sleepsOf (execute_request ⟨"GET", "https://x", 9, 3, false, false, false⟩
        (fun _ => .resp ⟨500, none, none, none, none⟩) false (.ok none)).1
      = [3 ^ 0, 3 ^ 1, 3 ^ 2, 3 ^ 3, 3 ^ 4, 3 ^ 5, 3 ^ 6, 3 ^ 7] := by
  exact ⟨by norm_num, rfl⟩

/-- Claim C4 (amended): in a run whose every physical attempt fails with
a retryable status, the base delay before retrying attempt `n`
(0-indexed) is exactly the `Retry-After` header value when the response
carries one, and `backoff_factor ** n` otherwise, with no cap of any
kind. -/
theorem backoff_per_attempt (cfg : ExecCfg) (world : ℕ → AttemptOutcome)
    (skipAsync : Bool) (pollResult : Except ApiError (Option String))
    (rs : ℕ → HttpResponse)
    (hw : ∀ n, world n = .resp (rs n))
    (hr : ∀ n, retryableStatus (rs n).status_code = true)
    (hm : 1 ≤ cfg.max_retries)
    (hgate : (cfg.hasBreaker && cfg.breakerOpen) = false) :
    sleepsOf (execute_request cfg world skipAsync pollResult).1
      = (List.range (cfg.max_retries - 1)).map
          (fun n => ((rs n).retry_after).getD (cfg.backoff_factor ^ n)) := by
  rw [execute_request_all_retryable cfg world skipAsync pollResult rs hw hr hm hgate]
  dsimp only
  unfold sleepsOf
  rw [List.filterMap_append]
  have hgateSleeps : (((if cfg.hasBreaker then [Ev.checkBreaker cfg.breakerOpen] else [])
      ++ (if cfg.hasLimiter then [Ev.acquireRateLimit] else [])).filterMap fun e =>
        match e with
        | .sleep d => some d
        | _ => none) = [] := by
    by_cases hb : cfg.hasBreaker <;> by_cases hl : cfg.hasLimiter <;> simp [hb, hl]
  rw [hgateSleeps, List.nil_append]
  have h5 := sleepsOf_trailEvs cfg rs cfg.max_retries 0
  unfold sleepsOf at h5
  rw [h5, List.range_eq_range']

/-- Witness for the amended C4 at a concrete input. -/
theorem backoff_per_attempt_witness :
    sleepsOf (execute_request ⟨"GET", "https://x", 3, 5, false, false, false⟩
        (fun _ => .resp ⟨429, some 7, none, none, none⟩) false (.ok none)).1
      = (List.range 2).map (fun n =>
          ((⟨429, some 7, none, none, none⟩ : HttpResponse).retry_after).getD (5 ^ n)) :=
  backoff_per_attempt _ _ false _ (fun _ => ⟨429, some 7, none, none, none⟩)
    (fun _ => rfl) (fun _ => rfl) (by norm_num) rfl

/-- Claim C5 fails as stated: the number of physical attempts is exactly
`max_retries`, but the error raised after the final retryable failure is
the per-status classified error (here `GET failed: HTTP 500`), which
does not wrap an attempt count — not the `failed after N attempts`
retries-exhausted error. -/
theorem retries_exhausted_counterexample :
    ((execute_request ⟨"GET", "https://x", 3, 1, false, false, false⟩
        (fun _ => .resp ⟨500, none, none, none, none⟩) false (.ok none)).1.countP
          isHttpAttempt = 3) ∧
    ((execute_request ⟨"GET", "https://x", 3, 1, false, false, false⟩
        (fun _ => .resp ⟨500, none, none, none, none⟩) false (.ok none)).2
      = .error (.apiOperationError "GET failed: HTTP 500")) ∧
    ((execute_request ⟨"GET", "https://x", 3, 1, false, false, false⟩
        (fun _ => .resp ⟨500, none, none, none, none⟩) false (.ok none)).2
      ≠ .error (.apiOperationError "GET failed after 3 attempts. Last error: HTTP 500")) := by
  refine ⟨rfl, rfl, fun h => ?_⟩
  have h2 : ApiError.apiOperationError "GET failed: HTTP 500"
      = ApiError.apiOperationError "GET failed after 3 attempts. Last error: HTTP 500" :=
    Except.error.inj h
  have h3 := ApiError.apiOperationError.inj h2
  exact absurd h3 (by decide)

/-- Claim C5 (amended): a call whose every physical attempt fails with a
retryable status performs exactly `max_retries` physical attempts and
then raises the error classified from the final response (an
`ApiOperationError` for 429/5xx), which wraps the last observed failure
but does not report the attempt count; the `failed after N attempts`
exhaustion error is reachable only when `max_retries = 0`. -/
theorem retry_bound_classified_error (cfg : ExecCfg) (world : ℕ → AttemptOutcome)
    (skipAsync : Bool) (pollResult : Except ApiError (Option String))
    (rs : ℕ → HttpResponse)
    (hw : ∀ n, world n = .resp (rs n))
    (hr : ∀ n, retryableStatus (rs n).status_code = true)
    (hm : 1 ≤ cfg.max_retries)
    (hgate : (cfg.hasBreaker && cfg.breakerOpen) = false) :
    ((execute_request cfg world skipAsync pollResult).1.countP isHttpAttempt
        = cfg.max_retries) ∧
    ((execute_request cfg world skipAsync pollResult).2
      = .error (handle_response_error cfg.hasBreaker
          (rs (cfg.max_retries - 1)) cfg.method).2) := by
  rw [execute_request_all_retryable cfg world skipAsync pollResult rs hw hr hm hgate]
  dsimp only
  refine ⟨?_, rfl⟩
  rw [List.countP_append,
    countP_gate_evs cfg isHttpAttempt rfl rfl,
    countP_httpAttempt_trailEvs]
  omega

/-- Witness for the amended C5 at a concrete input. -/
theorem retry_bound_classified_error_witness :
    ((execute_request ⟨"DELETE", "https://z", 2, 4, false, false, false⟩
        (fun _ => .resp ⟨502, none, none, none, none⟩) false (.ok none)).1.countP
          isHttpAttempt = 2) ∧
    ((execute_request ⟨"DELETE", "https://z", 2, 4, false, false, false⟩
        (fun _ => .resp ⟨502, none, none, none, none⟩) false (.ok none)).2
      = .error (handle_response_error false ⟨502, none, none, none, none⟩ "DELETE").2) :=
  retry_bound_classified_error _ _ false _ (fun _ => ⟨502, none, none, none, none⟩)
    (fun _ => rfl) (fun _ => rfl) (by norm_num) rfl

/-! ### The 202 polling loop (utils/rest_api_helpers.py, lines 352-394)

The loop body reads the clock at the `while` head, increments
`poll_count`, sleeps, and issues one GET to the `Location` URL; `times`
lists the successive `time.time() - start_time` readings at the loop
head (the sleeps and jitter between iterations are reflected in the gap
between consecutive readings), and `polls n` is the response of the
n-th follow-up GET (0-based).  When the loop-head check fails the code
raises `ApiTimeoutError` reporting a fresh elapsed reading and the poll
count; the model reports the same loop-head reading. -/

/-- Terminal outcome of the polling loop: completion with the final
body, a classified failure, the `ApiTimeoutError` with its reported
elapsed time and poll count, or the given time trace running out before
any of these. -/
inductive PollOutcome
  | completed (body : Option String)
  | failed (e : ApiError)
  | timedOut (elapsed : ℚ) (poll_count : ℕ)
  | outOfTrace
deriving DecidableEq, Repr

/-- The polling loop of `_handle_async_operation`: while the elapsed
reading is below `max_wait`, poll once; a 200 returns the body, a 202
updates `retry_after` from the response's `Retry-After` header (keeping
the previous value otherwise) and continues, any other status raises the
classified error; once the reading reaches `max_wait` the timeout error
is raised with the elapsed reading and the poll count. -/
def pollLoop (hasBreaker : Bool) (maxWait : ℚ) (polls : ℕ → HttpResponse) :
    List ℚ → ℕ → ℚ → PollOutcome
  | [], _, _ => .outOfTrace
  | t :: rest, pollCount, retryAfter =>
    if t < maxWait then
      let r := polls pollCount
      if r.status_code = 200 then .completed (respJson r)
      else if r.status_code = 202 then
        pollLoop hasBreaker maxWait polls rest (pollCount + 1)
          (match r.retry_after with
            | some ra => ra
            | none => retryAfter)
      else .failed (handle_response_error hasBreaker r "Async operation").2
    else .timedOut t pollCount

lemma pollLoop_timeout_aux (hasBreaker : Bool) (maxWait : ℚ)
    (polls : ℕ → HttpResponse)
    (hall : ∀ n, (polls n).status_code = 202)
    (t : ℚ) (post : List ℚ) (ht : maxWait ≤ t) :
    ∀ (pre : List ℚ) (k : ℕ) (ra : ℚ), (∀ u ∈ pre, u < maxWait) →
      pollLoop hasBreaker maxWait polls (pre ++ t :: post) k ra
        = .timedOut t (k + pre.length) := by
  intro pre
  induction pre with
  | nil =>
      intro k ra _
      simp only [List.nil_append, pollLoop]
      rw [if_neg (not_lt.mpr ht)]
      simp
  | cons u pre ih =>
      intro k ra hpre
      have hu : u < maxWait := hpre u (by simp)
      simp only [List.cons_append, pollLoop]
      rw [if_pos hu]
      have h200 : ¬ ((polls k).status_code = 200) := by simp [hall k]
      rw [if_neg h200, if_pos (hall k)]
      simp only [List.append_eq]
      rw [ih (k + 1) _ (fun v hv => hpre v (by simp [hv]))]
      have harith : k + 1 + pre.length = k + (u :: pre).length := by
        simp [List.length_cons]; omega
      rw [harith]

/-- Claim C8: when every poll of the `Location` endpoint returns 202,
the poller does not loop past the timeout: at the first loop-head clock
reading that reaches `max_wait` (all earlier readings being below it)
the loop stops polling and raises the timeout error, reporting that
elapsed reading and the number of polls performed (one per earlier
reading). -/
theorem async_poll_timeout (hasBreaker : Bool) (maxWait : ℚ)
    (polls : ℕ → HttpResponse) (pre : List ℚ) (t : ℚ) (post : List ℚ) (ra : ℚ)
    (hall : ∀ n, (polls n).status_code = 202)
    (hpre : ∀ u ∈ pre, u < maxWait) (ht : maxWait ≤ t) :
    pollLoop hasBreaker maxWait polls (pre ++ t :: post) 0 ra
      = .timedOut t pre.length := by
  have h := pollLoop_timeout_aux hasBreaker maxWait polls hall t post ht pre 0 ra hpre
  rwa [Nat.zero_add] at h

/-- Witness for C8 at a concrete input: `max_wait = 2` and an endless
sequence of 202 responses, with loop-head readings 0, 1, 2. -/
theorem async_poll_timeout_witness :
    pollLoop false 2 (fun _ => ⟨202, none, none, none, none⟩) ([0, 1] ++ 2 :: []) 0 5
      = .timedOut 2 2 :=
  async_poll_timeout false 2 (fun _ => ⟨202, none, none, none, none⟩) [0, 1] 2 [] 5
    (fun _ => rfl)
    (by
      intro u hu
      simp only [List.mem_cons, List.not_mem_nil, or_false] at hu
      rcases hu with rfl | rfl <;> norm_num)
    (le_refl 2)

/-! ### Claim C9: callers never observe a 202 response -/

lemma execLoop_cons_success (cfg : ExecCfg) (world : ℕ → AttemptOutcome)
    (skipAsync : Bool) (pollResult : Except ApiError (Option String))
    (a : ℕ) (rest : List ℕ) (lastError : Option String) (r : HttpResponse)
    (hw : world a = .resp r) (hok : (r.ok || decide (r.status_code = 202)) = true)
    (hna : ¬ ((decide (r.status_code = 202) && !skipAsync) = true)) :
    execLoop cfg world skipAsync pollResult (a :: rest) lastError
      = (Ev.httpAttempt a false :: (if cfg.hasBreaker then [Ev.recordSuccess] else []),
         .ok r) := by
  simp [execLoop, hw, hok, hna]

lemma execLoop_cons_async_ok (cfg : ExecCfg) (world : ℕ → AttemptOutcome)
    (skipAsync : Bool) (pollResult : Except ApiError (Option String))
    (a : ℕ) (rest : List ℕ) (lastError : Option String) (r : HttpResponse)
    (v : Option String)
    (hw : world a = .resp r) (hok : (r.ok || decide (r.status_code = 202)) = true)
    (ha : (decide (r.status_code = 202) && !skipAsync) = true)
    (hasy : handle_async_operation r pollResult = .ok v) :
    execLoop cfg world skipAsync pollResult (a :: rest) lastError
      = (Ev.httpAttempt a false :: (if cfg.hasBreaker then [Ev.recordSuccess] else []),
         .ok { r with content := v, status_code := 200 }) := by
  simp [execLoop, hw, hok, ha, hasy]

lemma execLoop_cons_async_err (cfg : ExecCfg) (world : ℕ → AttemptOutcome)
    (skipAsync : Bool) (pollResult : Except ApiError (Option String))
    (a : ℕ) (rest : List ℕ) (lastError : Option String) (r : HttpResponse)
    (e : ApiError)
    (hw : world a = .resp r) (hok : (r.ok || decide (r.status_code = 202)) = true)
    (ha : (decide (r.status_code = 202) && !skipAsync) = true)
    (hasy : handle_async_operation r pollResult = .error e) :
    execLoop cfg world skipAsync pollResult (a :: rest) lastError
      = (Ev.httpAttempt a false :: (if cfg.hasBreaker then [Ev.recordSuccess] else []),
         .error e) := by
  simp [execLoop, hw, hok, ha, hasy]

lemma execLoop_cons_nonretryable (cfg : ExecCfg) (world : ℕ → AttemptOutcome)
    (skipAsync : Bool) (pollResult : Except ApiError (Option String))
    (a : ℕ) (rest : List ℕ) (lastError : Option String) (r : HttpResponse)
    (hw : world a = .resp r) (hok : ¬ ((r.ok || decide (r.status_code = 202)) = true))
    (hretry : ¬ (retryableStatus r.status_code = true)) :
    execLoop cfg world skipAsync pollResult (a :: rest) lastError
      = (Ev.httpAttempt a true :: (handle_response_error cfg.hasBreaker r cfg.method).1,
         .error (handle_response_error cfg.hasBreaker r cfg.method).2) := by
  simp [execLoop, hw, hok, hretry]

lemma execLoop_cons_timeoutExc (cfg : ExecCfg) (world : ℕ → AttemptOutcome)
    (skipAsync : Bool) (pollResult : Except ApiError (Option String))
    (a : ℕ) (rest : List ℕ) (lastError : Option String) (m : String)
    (hw : world a = .timeoutExc m) (hlt : a < cfg.max_retries - 1) :
    execLoop cfg world skipAsync pollResult (a :: rest) lastError
      = (Ev.httpAttempt a true :: Ev.sleep (cfg.backoff_factor ^ a)
          :: (execLoop cfg world skipAsync pollResult rest (some m)).1,
         (execLoop cfg world skipAsync pollResult rest (some m)).2) := by
  simp [execLoop, hw, hlt]

lemma execLoop_cons_timeoutExc_last (cfg : ExecCfg) (world : ℕ → AttemptOutcome)
    (skipAsync : Bool) (pollResult : Except ApiError (Option String))
    (a : ℕ) (rest : List ℕ) (lastError : Option String) (m : String)
    (hw : world a = .timeoutExc m) (hlt : ¬ (a < cfg.max_retries - 1)) :
    execLoop cfg world skipAsync pollResult (a :: rest) lastError
      = ([Ev.httpAttempt a true],
         .error (.apiTimeoutError (cfg.method ++ " request timed out: " ++ cfg.url))) := by
  simp [execLoop, hw, hlt]

lemma execLoop_cons_requestExc (cfg : ExecCfg) (world : ℕ → AttemptOutcome)
    (skipAsync : Bool) (pollResult : Except ApiError (Option String))
    (a : ℕ) (rest : List ℕ) (lastError : Option String) (m : String)
    (hw : world a = .requestExc m) (hlt : a < cfg.max_retries - 1) :
    execLoop cfg world skipAsync pollResult (a :: rest) lastError
      = (Ev.httpAttempt a true :: Ev.sleep (cfg.backoff_factor ^ a)
          :: (execLoop cfg world skipAsync pollResult rest (some m)).1,
         (execLoop cfg world skipAsync pollResult rest (some m)).2) := by
  simp [execLoop, hw, hlt]

lemma execLoop_cons_requestExc_last (cfg : ExecCfg) (world : ℕ → AttemptOutcome)
    (skipAsync : Bool) (pollResult : Except ApiError (Option String))
    (a : ℕ) (rest : List ℕ) (lastError : Option String) (m : String)
    (hw : world a = .requestExc m) (hlt : ¬ (a < cfg.max_retries - 1)) :
    execLoop cfg world skipAsync pollResult (a :: rest) lastError
      = ([Ev.httpAttempt a true],
         .error (.apiOperationError (cfg.method ++ " request failed: " ++ m))) := by
  simp [execLoop, hw, hlt]

lemma execLoop_ok_not_202 (cfg : ExecCfg) (world : ℕ → AttemptOutcome)
    (pollResult : Except ApiError (Option String)) :
    ∀ (attempts : List ℕ) (lastError : Option String) (r1 : HttpResponse),
      (execLoop cfg world false pollResult attempts lastError).2 = .ok r1 →
      r1.status_code ≠ 202 := by
  intro attempts
  induction attempts with
  | nil =>
      intro lastError r1 h
      exact Except.noConfusion h
  | cons a rest ih =>
      intro lastError r1 h
      rcases hwa : world a with r | m | m
      · by_cases hok : (r.ok || decide (r.status_code = 202)) = true
        · by_cases ha : (decide (r.status_code = 202) && !false) = true
          · rcases hasy : handle_async_operation r pollResult with e | v
            · rw [execLoop_cons_async_err cfg world false pollResult a rest lastError
                r e hwa hok ha hasy] at h
              exact Except.noConfusion h
            · rw [execLoop_cons_async_ok cfg world false pollResult a rest lastError
                r v hwa hok ha hasy] at h
              injection h with h1
              rw [← h1]
              simp
          · rw [execLoop_cons_success cfg world false pollResult a rest lastError
              r hwa hok ha] at h
            injection h with h1
            rw [← h1]
            intro hc
            exact ha (by simp [hc])
        · by_cases hretry : retryableStatus r.status_code = true
          · by_cases hlt : a < cfg.max_retries - 1
            · rw [execLoop_cons_retryable cfg world false pollResult a rest lastError
                r hwa hretry hlt] at h
              exact ih _ r1 h
            · rw [execLoop_cons_retryable_last cfg world false pollResult a rest lastError
                r hwa hretry hlt] at h
              exact Except.noConfusion h
          · rw [execLoop_cons_nonretryable cfg world false pollResult a rest lastError
              r hwa hok hretry] at h
            exact Except.noConfusion h
      · by_cases hlt : a < cfg.max_retries - 1
        · rw [execLoop_cons_timeoutExc cfg world false pollResult a rest lastError
            m hwa hlt] at h
          exact ih _ r1 h
        · rw [execLoop_cons_timeoutExc_last cfg world false pollResult a rest lastError
            m hwa hlt] at h
          exact Except.noConfusion h
      · by_cases hlt : a < cfg.max_retries - 1
        · rw [execLoop_cons_requestExc cfg world false pollResult a rest lastError
            m hwa hlt] at h
          exact ih _ r1 h
        · rw [execLoop_cons_requestExc_last cfg world false pollResult a rest lastError
            m hwa hlt] at h
          exact Except.noConfusion h

/-- Claim C9: through the pipeline as the public request methods call it
(`skip_async_check = False`), a returned response never carries status
202; when the initial request yields a 202 with a `Location` header the
returned response has status 200 and the polling loop's result `v` as
body, and when the 202 carries no `Location` header the returned
response keeps its own body, its status still rewritten to 200. -/
theorem no_202_escapes :
    (∀ (cfg : ExecCfg) (world : ℕ → AttemptOutcome)
        (pollResult : Except ApiError (Option String)) (r1 : HttpResponse),
      (execute_request cfg world false pollResult).2 = .ok r1 →
      r1.status_code ≠ 202) ∧
    (∀ (cfg : ExecCfg) (world : ℕ → AttemptOutcome) (r : HttpResponse)
        (v : Option String) (l : String),
      world 0 = .resp r → r.status_code = 202 → r.location = some l →
      (cfg.hasBreaker && cfg.breakerOpen) = false → 1 ≤ cfg.max_retries →
      (execute_request cfg world false (.ok v)).2
        = .ok { r with content := v, status_code := 200 }) ∧
    (∀ (cfg : ExecCfg) (world : ℕ → AttemptOutcome) (r : HttpResponse)
        (pollResult : Except ApiError (Option String)),
      world 0 = .resp r → r.status_code = 202 → r.location = none →
      (cfg.hasBreaker && cfg.breakerOpen) = false → 1 ≤ cfg.max_retries →
      (execute_request cfg world false pollResult).2
        = .ok { r with status_code := 200 }) := by
  refine ⟨?_, ?_, ?_⟩
  · intro cfg world pollResult r1 h
    by_cases hgate : (cfg.hasBreaker && cfg.breakerOpen) = true
    · rw [execute_request, if_pos hgate] at h
      exact Except.noConfusion h
    · rw [execute_request, if_neg hgate] at h
      exact execLoop_ok_not_202 cfg world pollResult _ _ r1 h
  · intro cfg world r v l hw0 h202 hloc hgate hm
    obtain ⟨m, hmr⟩ : ∃ m, cfg.max_retries = m + 1 := ⟨cfg.max_retries - 1, by omega⟩
    have hok : (r.ok || decide (r.status_code = 202)) = true := by simp [h202]
    have hc2 : (decide (r.status_code = 202) && !false) = true := by simp [h202]
    have hasy : handle_async_operation r (.ok v) = .ok v := by
      unfold handle_async_operation
      rw [if_neg (by simp [h202]), hloc]
    have hrange : List.range cfg.max_retries = 0 :: List.range' 1 m := by
      rw [List.range_eq_range', hmr]
      rfl
    rw [execute_request, if_neg (by simp [hgate]), hrange,
      execLoop_cons_async_ok cfg world false (.ok v) 0 (List.range' 1 m) none
        r v hw0 hok hc2 hasy]
  · intro cfg world r pollResult hw0 h202 hloc hgate hm
    obtain ⟨m, hmr⟩ : ∃ m, cfg.max_retries = m + 1 := ⟨cfg.max_retries - 1, by omega⟩
    have hok : (r.ok || decide (r.status_code = 202)) = true := by simp [h202]
    have hc2 : (decide (r.status_code = 202) && !false) = true := by simp [h202]
    have hasy : handle_async_operation r pollResult = .ok r.content := by
      unfold handle_async_operation
      rw [if_neg (by simp [h202]), hloc]
      rfl
    have hrange : List.range cfg.max_retries = 0 :: List.range' 1 m := by
      rw [List.range_eq_range', hmr]
      rfl
    rw [execute_request, if_neg (by simp [hgate]), hrange,
      execLoop_cons_async_ok cfg world false pollResult 0 (List.range' 1 m) none
        r r.content hw0 hok hc2 hasy]

/-- Witness for C9 at a concrete input: a 202 with a `Location` header
whose polling completes with body `done`. -/
theorem no_202_escapes_witness :
    (execute_request ⟨"POST", "https://w", 5, 3, false, false, false⟩
        (fun _ => .resp ⟨202, none, some "https://w/status", none, none⟩) false
        (.ok (some "done"))).2
      = .ok { status_code := 200, retry_after := none,
              location := some "https://w/status", content := some "done",
              err_message := none } :=
  no_202_escapes.2.1 _ _ ⟨202, none, some "https://w/status", none, none⟩
    (some "done") "https://w/status" rfl rfl rfl rfl (by norm_num)

/-! ### create_or_update (utils/rest_api_helpers.py, lines 696-766) -/

/-- Python-level outcome of a sub-call inside `create_or_update`: a
returned value, or a raised exception carrying its `str(e)` text. -/
inductive PyResult (α : Type)
  | ok (val : α)
  | exc (message : String)
deriving DecidableEq, Repr

/-- An entity of the `value` list returned by the existence check, with
the fields `create_or_update` reads: `@odata.id`, `id`, `@odata.etag`. -/
structure ODataEntity where
  odata_id : Option String := none
  id : Option String := none
  odata_etag : Option String := none
deriving DecidableEq, Repr

/-- `RestOperationResult` (utils/rest_api_helpers.py, lines 41-61). -/
structure RestOperationResult where
  success : Bool
  operation : String
  entity_id : String
  message : String
  status_code : ℕ := 0
  raw_result : Option String := none
deriving DecidableEq, Repr

/-- The failed result built in the `except` clause of
`create_or_update`. -/
def failedResult (key_value message : String) : RestOperationResult :=
  { success := false, operation := "failed", entity_id := key_value,
    message := message, status_code := 0 }

/-- `TxoRestAPI.create_or_update`: queries for an existing entity by key
(`getRes` is the `value` list of the `get` call, or its exception),
patches the first hit (`patchRes`) or posts a new entity (`postRes`),
and converts any exception raised on the executed path into the failed
result instead of propagating it.  Each sub-call outcome is consumed
only on the path that performs it.  The filter URL and the `If-Match`
etag only feed the abstracted sub-calls. -/
def create_or_update (url entity_name key_field key_value : String)
    (getRes : PyResult (List ODataEntity))
    (patchRes : PyResult Unit)
    (postRes : PyResult (Option String)) : RestOperationResult :=
  let _filter_url := url ++ "?$filter=" ++ key_field ++ " eq " ++ key_value
  match getRes with
  | .exc m => failedResult key_value m
  | .ok entities =>
    match entities with
    | existing :: _ =>
      let entity_id := (existing.odata_id).getD ((existing.id).getD key_value)
      let _update_url := match existing.odata_id with
        | some oid => oid
        | none => url ++ "(" ++ entity_id ++ ")"
      match patchRes with
      | .exc m => failedResult key_value m
      | .ok _ =>
          { success := true, operation := "updated", entity_id := key_value,
            message := "Updated existing " ++ entity_name, status_code := 200 }
    | [] =>
      match postRes with
      | .exc m => failedResult key_value m
      | .ok result =>
          { success := true, operation := "created", entity_id := key_value,
            message := "Created new " ++ entity_name, status_code := 201,
            raw_result := result }

/-- Claim C10: `create_or_update` is a total function into
`RestOperationResult` — no exception propagates — and whenever the
sub-call executed on its path raises, the result is exactly the failed
result: `success = false`, `operation = "failed"`, `status_code = 0`,
`entity_id` the given key value, and `message` the exception text. -/
theorem create_or_update_never_raises
    (url entity_name key_field key_value : String)
    (getRes : PyResult (List ODataEntity)) (patchRes : PyResult Unit)
    (postRes : PyResult (Option String)) :
    (∀ m, getRes = .exc m →
      create_or_update url entity_name key_field key_value getRes patchRes postRes
        = failedResult key_value m) ∧
    (∀ m e rest, getRes = .ok (e :: rest) → patchRes = .exc m →
      create_or_update url entity_name key_field key_value getRes patchRes postRes
        = failedResult key_value m) ∧
    (∀ m, getRes = .ok [] → postRes = .exc m →
      create_or_update url entity_name key_field key_value getRes patchRes postRes
        = failedResult key_value m) ∧
    (failedResult key_value "x"
      = { success := false, operation := "failed", entity_id := key_value,
          message := "x", status_code := 0, raw_result := none }) := by
  refine ⟨?_, ?_, ?_, rfl⟩
  · intro m hg
    rw [hg]
    rfl
  · intro m e rest hg hp
    rw [hg, hp]
    rfl
  · intro m hg hp
    rw [hg, hp]
    rfl

/-- Witness for C10 at a concrete input. -/
theorem create_or_update_never_raises_witness :
    create_or_update "https://b/c" "item" "number" "42"
      (.ok []) (.ok ()) (.exc "connection reset")
      = failedResult "42" "connection reset" :=
  (create_or_update_never_raises "https://b/c" "item" "number" "42"
    (.ok []) (.ok ()) (.exc "connection reset")).2.2.1
    "connection reset" rfl rfl

end TxoTemplate
